import Mathlib

/-!
Verification development for the Smart Document Editor repository
(assets/js/editor.js, the storage module and the PDF export module).

The JavaScript modules are shallowly embedded: pure computations become
Lean functions, browser/library collaborators (localStorage, JSON,
Quill, html2canvas, jsPDF, window.alert) are modelled by explicit state
values and result structures, timers become an explicit event-trace
simulation, and operations that may propagate an exception to the page
return an Except value.
-/

/-! ## JavaScript string primitives (character-list based, kernel reducible) -/

/-- Model of the JavaScript String.prototype.trim used as text.trim() in
editor.js and the storage module: drop whitespace from both ends. -/
def jsTrim (s : String) : String :=
  String.mk (((s.data.dropWhile Char.isWhitespace).reverse.dropWhile Char.isWhitespace).reverse)

/-- Helper for splitting a character list at whitespace, accumulator style.
Consecutive whitespace produces empty chunks, exactly like splitting on a
single-character separator; the callers filter empty chunks away, which
makes the word counts agree with the JavaScript split on a whitespace run. -/
def splitWsAux : List Char → List Char → List (List Char)
  | [], acc => [acc.reverse]
  | c :: rest, acc =>
    if Char.isWhitespace c then acc.reverse :: splitWsAux rest []
    else splitWsAux rest (c :: acc)

/-- Model of text.split on whitespace followed by filtering out empty tokens
and taking the length, as done in performSave and updateWordCount. -/
def wordCountOf (text : String) : Nat :=
  ((splitWsAux text.data []).filter (fun w => !w.isEmpty)).length

/-- Model of JavaScript String.prototype.includes, used by handleLoadError
on error.message. -/
def containsSubAux : List Char → List Char → Bool
  | [], sub => sub.isEmpty
  | c :: rest, sub => sub.isPrefixOf (c :: rest) || containsSubAux rest sub

/-- String inclusion test: strIncludes s sub is true when sub occurs inside s. -/
def strIncludes (s sub : String) : Bool :=
  containsSubAux s.data sub.data

/-! ## JSON values and the platform JSON collaborator -/

/-- Structured JSON values, the image of JSON.parse. Numbers are modelled as
integers (the repository only stores epoch timestamps and word counts). -/
inductive Json where
  | null
  | bool (b : Bool)
  | num (n : Int)
  | str (s : String)
  | arr (elems : List Json)
  | obj (fields : List (String × Json))

/-- Model of a JavaScript runtime error value, carrying the constructor name
(checked by handleSaveError and handleLoadError) and the message. -/
structure JsError where
  name : String
  message : String
deriving DecidableEq

/-- Value stored under a localStorage key: either the output of
JSON.stringify on some structured value, or an arbitrary (possibly
malformed) string that does not parse as JSON. -/
inductive StoredVal where
  | wellFormed (j : Json)
  | malformed (s : String)

/-- Model of JSON.stringify: its output always parses back to the same
structured value, which the wellFormed constructor records. -/
def jsonStringify (j : Json) : StoredVal :=
  StoredVal.wellFormed j

/-- The SyntaxError raised by JSON.parse on malformed input. -/
def jsonSyntaxError : JsError :=
  ⟨"SyntaxError", "Unexpected token in JSON"⟩

/-- Model of JSON.parse: succeeds exactly on stringify output, raises a
SyntaxError on a malformed stored string. -/
def jsonParse : StoredVal → Except JsError Json
  | StoredVal.wellFormed j => Except.ok j
  | StoredVal.malformed _ => Except.error jsonSyntaxError

/-- JavaScript truthiness of a property-access result (none stands for
undefined): undefined, null, false, 0 and the empty string are falsy. -/
def jsTruthy : Option Json → Bool
  | none => false
  | some Json.null => false
  | some (Json.bool b) => b
  | some (Json.num n) => n != 0
  | some (Json.str s) => !(s.length == 0)
  | some (Json.arr _) => true
  | some (Json.obj _) => true

/-- The TypeError raised by a property access on null. -/
def nullPropertyError : JsError :=
  ⟨"TypeError", "Cannot read properties of null"⟩

/-- Model of a JavaScript property access j.key: reading a property of null
throws a TypeError, reading a missing property of anything else yields
undefined (none), and an object yields its field. -/
def jsGet (j : Json) (key : String) : Except JsError (Option Json) :=
  match j with
  | Json.null => Except.error nullPropertyError
  | Json.obj fields => Except.ok ((fields.find? (fun p => p.1 == key)).map (fun p => p.2))
  | _ => Except.ok none

/-- Total property lookup, used where the base value is already known to be
truthy (hence not null), so no TypeError can occur. -/
def jsGetD (j : Json) (key : String) : Option Json :=
  match j with
  | Json.obj fields => (fields.find? (fun p => p.1 == key)).map (fun p => p.2)
  | _ => none

/-! ## The Quill engine collaborator: Delta content and history -/

/-- One Quill Delta operation of a document snapshot: inserted text with an
optional attributes object (bold, italic, and so on, opaque here). -/
structure Op where
  insert : String
  attributes : Option Json

/-- Quill Delta document content as returned by quill.getContents: an
ordered list of insert operations. -/
structure Delta where
  ops : List Op

/-- Plain text of a Delta, as returned by quill.getText: the concatenation
of the inserted strings. -/
def deltaText (d : Delta) : String :=
  d.ops.foldl (fun acc op => acc ++ op.insert) ("")

/-- State of the Quill engine instance: current content plus the history
module stacks (editor.js configures history with userOnly true, so
programmatic content changes are not pushed onto the undo stack). -/
structure Quill where
  content : Delta
  undoStack : List Delta
  redoStack : List Delta

/-- Model of quill.setText: replaces the content with the given plain text
(Quill documents always end with a newline). With userOnly history this
programmatic change is not recorded on the undo stack. -/
def setText (q : Quill) (s : String) : Quill :=
  { q with content := ⟨[⟨s ++ "\n", none⟩]⟩ }

/-- Model of quill.setContents: replaces the content with the given Delta;
programmatic, so not recorded on the undo stack (userOnly history). -/
def setContents (q : Quill) (d : Delta) : Quill :=
  { q with content := d }

/-- Model of quill.history.clear: empties both history stacks. -/
def historyClear (q : Quill) : Quill :=
  { q with undoStack := [], redoStack := [] }

/-- Model of quill.history.undo: restores the top undo snapshot, or does
nothing when the undo stack is empty. -/
def historyUndo (q : Quill) : Quill :=
  match q.undoStack with
  | [] => q
  | d :: rest => { content := d, undoStack := rest, redoStack := q.content :: q.redoStack }

/-- The initial empty Quill document. -/
def emptyQuill : Quill :=
  ⟨⟨[⟨"\n", none⟩]⟩, [], []⟩

/-- Model of createNewDocument from editor.js: after user confirmation it
clears the editor content with setText and then clears the history stack;
without confirmation it does nothing. -/
def createNewDocument (q : Quill) (confirmed : Bool) : Quill :=
  if confirmed then historyClear (setText q ("")) else q

/-! ## Delta serialization: getContents output as JSON and back -/

/-- JSON encoding of one Delta operation, as JSON.stringify sees it inside
the save record. -/
def encodeOp (op : Op) : Json :=
  Json.obj (("insert", Json.str op.insert) ::
    (match op.attributes with
     | some a => [("attributes", a)]
     | none => []))

/-- JSON encoding of a Delta: an object with an ops array, exactly the shape
validated by loadSavedDocument. -/
def encodeDelta (d : Delta) : Json :=
  Json.obj [("ops", Json.arr (d.ops.map encodeOp))]

/-- Decoding of one operation object back into a Delta operation, as
quill.setContents interprets the parsed save record. -/
def decodeOp (j : Json) : Op :=
  { insert :=
      match jsGetD j ("insert") with
      | some (Json.str s) => s
      | _ => ""
    attributes := jsGetD j ("attributes") }

/-- Decoding of a parsed content object back into a Delta. -/
def decodeDelta (j : Json) : Delta :=
  { ops :=
      match jsGetD j ("ops") with
      | some (Json.arr l) => l.map decodeOp
      | _ => [] }

/-! ## Storage module: status display, performSave, load, manualLoad -/

/-- Status values passed to updateAutosaveStatus in the storage module. -/
inductive SaveStatus where
  | ready
  | pending
  | saved
  | loaded
  | error
  | disabled
deriving DecidableEq

/-- The footer text written by updateAutosaveStatus for each status. -/
def statusMessage : SaveStatus → String
  | SaveStatus.ready => "Autosave: Ready"
  | SaveStatus.pending => "Autosave: Saving..."
  | SaveStatus.saved => "Autosave: ✓ Saved"
  | SaveStatus.loaded => "Autosave: ✓ Loaded"
  | SaveStatus.error => "Autosave: ⚠ Error"
  | SaveStatus.disabled => "Autosave: Off (empty doc)"

/-- Alert shown by performSave after a successful manual save. -/
def manualSaveSuccessAlert : String :=
  "✅ Document saved successfully!"

/-- Quota-exceeded alert text from handleSaveError. -/
def quotaExceededMessage : String :=
  "Storage quota exceeded! Please clear some browser data or export your document."

/-- Generic save-failure alert text from handleSaveError. -/
def genericSaveFailMessage : String :=
  "Failed to save document. Please try again."

/-- Error classification of handleSaveError: the QuotaExceededError name
selects the quota message, anything else the generic one. -/
def saveErrorAlertMessage (e : JsError) : String :=
  if e.name == "QuotaExceededError" then quotaExceededMessage else genericSaveFailMessage

/-- The save record built by performSave: content Delta plus timestamp,
version and word count metadata, in source order. -/
def buildSaveRecord (content : Delta) (now : Nat) : Json :=
  Json.obj
    [("content", encodeDelta content),
     ("timestamp", Json.num (Int.ofNat now)),
     ("version", Json.str ("1.0")),
     ("wordCount", Json.num (Int.ofNat (wordCountOf (jsTrim (deltaText content)))))]

/-- Result of one performSave call: the stored value under the fixed
localStorage key afterwards, the status reported to the footer, and the
alert (window.alert) shown to the user, if any. -/
structure SaveOutcome where
  store : Option StoredVal
  status : SaveStatus
  alert : Option String

/-- Model of handleSaveError: classifies the error, alerts the classified
message only for manual saves, and sets the error status either way. The
store is left unchanged because the write threw. -/
def handleSaveError (e : JsError) (isAutomatic : Bool) (store : Option StoredVal) : SaveOutcome :=
  ⟨store, SaveStatus.error, if isAutomatic then none else some (saveErrorAlertMessage e)⟩

/-- Model of performSave from the storage module. Arguments: the save kind,
the current engine content, the stored value under the fixed key before the
call, an optional error thrown by localStorage.setItem (none means the
write succeeds; used to model quota exhaustion and unavailable storage),
and the current epoch time. An automatic save of a document whose trimmed
plain text is empty skips the write and reports the disabled status. -/
def performSave (isAutomatic : Bool) (content : Delta) (store : Option StoredVal)
    (writeErr : Option JsError) (now : Nat) : SaveOutcome :=
  let text := jsTrim (deltaText content)
  if text.length == 0 && isAutomatic then
    ⟨store, SaveStatus.disabled, none⟩
  else
    match writeErr with
    | none =>
      ⟨some (jsonStringify (buildSaveRecord content now)), SaveStatus.saved,
       if isAutomatic then none else some manualSaveSuccessAlert⟩
    | some e => handleSaveError e isAutomatic store

/-- The validation error thrown by loadSavedDocument on a record that does
not have a truthy content field with a truthy ops property. -/
def invalidSaveFormatError : JsError :=
  ⟨"Error", "Invalid save data format"⟩

/-- Model of the shape validation in loadSavedDocument: savedData.content
must be truthy (a property access on a parsed null throws a TypeError
first), and savedData.content.ops must be truthy; otherwise the invalid
format error is thrown. On success the content JSON is returned. -/
def validateSaveData (j : Json) : Except JsError Json :=
  match jsGet j ("content") with
  | Except.error e => Except.error e
  | Except.ok contentVal =>
    if jsTruthy contentVal then
      match contentVal with
      | some contentJson =>
        if jsTruthy (jsGetD contentJson ("ops")) then Except.ok contentJson
        else Except.error invalidSaveFormatError
      | none => Except.error invalidSaveFormatError
    else Except.error invalidSaveFormatError

/-- Result of loadSavedDocument: the engine afterwards, the stored value
afterwards (handleLoadError may clear it), the status written to the footer
(none when no branch updates it), and the alert shown, if any. -/
structure LoadOutcome where
  quill : Quill
  store : Option StoredVal
  statusSet : Option SaveStatus
  alert : Option String

/-- Alert shown by handleLoadError after clearing corrupted data. -/
def corruptClearedAlert : String :=
  "Corrupted data cleared. You can start a new document."

/-- Generic load-failure alert from handleLoadError. -/
def loadFailAlertGeneric : String :=
  "Failed to load document. The saved data may be corrupted."

/-- Model of handleLoadError: a SyntaxError or a message containing Invalid
is treated as corrupted data and the user is offered a destructive reset
(confirmClear is the answer to that confirm dialog); declining leaves
everything untouched. Any other error shows the generic failure alert. -/
def handleLoadError (e : JsError) (store : Option StoredVal) (q : Quill)
    (confirmClear : Bool) : LoadOutcome :=
  if e.name == "SyntaxError" || strIncludes e.message ("Invalid") then
    if confirmClear then
      ⟨setText q (""), none, some SaveStatus.ready, some corruptClearedAlert⟩
    else
      ⟨q, store, none, none⟩
  else
    ⟨q, store, some SaveStatus.error, some loadFailAlertGeneric⟩

/-- Model of loadSavedDocument: no stored record means the ready status and
nothing else; otherwise the record is parsed and validated inside the try
block, and on success the engine content is replaced with the decoded
content field and the history is cleared. Every parse or validation error
is caught and routed to handleLoadError. -/
def loadSavedDocument (store : Option StoredVal) (q : Quill) (confirmClear : Bool) : LoadOutcome :=
  match store with
  | none => ⟨q, none, some SaveStatus.ready, none⟩
  | some sv =>
    match jsonParse sv with
    | Except.error e => handleLoadError e store q confirmClear
    | Except.ok j =>
      match validateSaveData j with
      | Except.error e => handleLoadError e store q confirmClear
      | Except.ok contentJson =>
        ⟨historyClear (setContents q (decodeDelta contentJson)), store,
         some SaveStatus.loaded, none⟩

/-- Truthiness of the string localStorage.getItem returns for a stored
value: stringify output is a nonempty JSON text, a malformed stored string
is truthy unless empty. -/
def storedTruthy : StoredVal → Bool
  | StoredVal.wellFormed _ => true
  | StoredVal.malformed s => !(s.length == 0)

/-- Abstract model of new Date(t).toLocaleString() on a parsed timestamp
property (the exact rendering is irrelevant to every claim). -/
def jsDateToLocaleString (j : Option Json) : String :=
  match j with
  | some (Json.num n) => "(date " ++ toString n ++ ")"
  | _ => "Invalid Date"

/-- Result of manualLoad when it returns normally. -/
structure ManualLoadOutcome where
  quill : Quill
  store : Option StoredVal
  statusSet : Option SaveStatus
  alerts : List String

/-- Model of manualLoad from the storage module: after the user confirms,
it runs loadSavedDocument (which catches its own errors), then reads the
stored value again and, when present and truthy, calls JSON.parse and a
property access on the result OUTSIDE any try block, so a malformed stored
record at this point propagates as an uncaught exception, modelled by the
Except.error result. -/
def manualLoad (store : Option StoredVal) (q : Quill) (confirmLoad confirmClear : Bool) :
    Except JsError ManualLoadOutcome :=
  if !confirmLoad then Except.ok ⟨q, store, none, []⟩
  else
    let r := loadSavedDocument store q confirmClear
    let baseAlerts := r.alert.toList
    match r.store with
    | none => Except.ok ⟨r.quill, r.store, r.statusSet, baseAlerts⟩
    | some sv =>
      if storedTruthy sv then
        match jsonParse sv with
        | Except.error e => Except.error e
        | Except.ok j =>
          match jsGet j ("timestamp") with
          | Except.error e => Except.error e
          | Except.ok ts =>
            Except.ok ⟨r.quill, r.store, r.statusSet,
              baseAlerts ++ ["✅ Loaded document from " ++ jsDateToLocaleString ts]⟩
      else Except.ok ⟨r.quill, r.store, r.statusSet, baseAlerts⟩

/-! ## Debounce timers: autosave (2000 ms) and word count (300 ms) -/

/-- Source tag delivered with a Quill text-change notification. -/
inductive Source where
  | user
  | api
  | silent
deriving DecidableEq

/-- Single-timer debounce simulation over a time-ordered trace of events.
Each event is a pair of its time and whether it re-arms the timer
(clearTimeout of any pending handle followed by setTimeout at time plus
delay, as triggerAutosave and debouncedWordCountUpdate do). The JavaScript
event loop runs a due timer callback before handling an event dispatched at
or after the deadline, so a pending deadline at or before the next event
time fires first; a timer still pending after the last event fires once the
trace ends. The returned list is the sequence of firing times. -/
def debounceRun (delay : Nat) : Option Nat → List (Nat × Bool) → List Nat
  | some d, [] => [d]
  | none, [] => []
  | some d, (t, arms) :: rest =>
    if d ≤ t then d :: debounceRun delay (if arms then some (t + delay) else none) rest
    else debounceRun delay (if arms then some (t + delay) else some d) rest
  | none, (t, arms) :: rest =>
    debounceRun delay (if arms then some (t + delay) else none) rest

/-- Times at which performSave(true) executes for a trace of text-change
notifications, as wired by setupStorageListeners and triggerAutosave: only
notifications whose source is user re-arm the single 2000 ms autosave
timer; all other sources leave it alone. Models the session in which
isAutosaveEnabled is true (the unavailable-storage session is modelled by
storageStep below). -/
def autosaveFires (evs : List (Nat × Source)) : List Nat :=
  debounceRun 2000 none (evs.map (fun e => (e.1, e.2 == Source.user)))

/-- Specification-side rendering of the claimed autosave timing, written
from the words of the spec: a save fires exactly 2000 ms after each
user-sourced change that is not followed by another user-sourced change
strictly inside its 2000 ms quiet window; changes from other sources never
produce or suppress a fire. To be compared with autosaveFires, which is
translated from the code. -/
def autosaveQuietSpec : List (Nat × Source) → List Nat
  | [] => []
  | (t, s) :: rest =>
    if s == Source.user then
      if rest.any (fun p => (p.2 == Source.user) && decide (p.1 < t + 2000)) then
        autosaveQuietSpec rest
      else
        (t + 2000) :: autosaveQuietSpec rest
    else
      autosaveQuietSpec rest

/-- Generic specification-side form of debounceRun used to relate the
simulation to the quiet-window description, over plain arming flags. -/
def quietSpecFires (delay : Nat) : List (Nat × Bool) → List Nat
  | [] => []
  | (t, arms) :: rest =>
    if arms then
      if rest.any (fun p => p.2 && decide (p.1 < t + delay)) then
        quietSpecFires delay rest
      else
        (t + delay) :: quietSpecFires delay rest
    else
      quietSpecFires delay rest

/-- Firing contribution of a timer already pending when a trace begins: it
fires unless some arming event of the trace precedes its deadline (used to
state the debounce lemma compositionally). -/
def pendingFire (evs : List (Nat × Bool)) : Option Nat → List Nat
  | some d => if evs.any (fun p => p.2 && decide (p.1 < d)) then [] else [d]
  | none => []

/-! ## Editor module: word count wiring -/

/-- The footer text written by updateWordCount for a given plain text. -/
def updateWordCountDisplay (text : String) : String :=
  let trimmed := jsTrim text
  "Words: " ++ toString (wordCountOf trimmed) ++ " | Characters: " ++ toString trimmed.length

/-- The two candidate text-change handlers for the word count present in
editor.js: the direct call to updateWordCount, and the 300 ms debounced
wrapper debouncedWordCountUpdate. -/
inductive TextChangeWordHandler where
  | immediate
  | debounced
deriving DecidableEq

/-- The handler initializeEditor actually attaches to the text-change event:
the anonymous callback invokes updateWordCount directly; the debounced
wrapper defined further down in editor.js is never attached to anything. -/
def editorWordCountWiring : TextChangeWordHandler :=
  TextChangeWordHandler.immediate

/-- Times at which the word-count computation (and its status-display
write) executes for a burst of text-change events, under each handler: the
immediate handler runs it at every event, the debounced wrapper only 300 ms
after the last event of a quiet window. -/
def wordCountRuns (h : TextChangeWordHandler) (eventTimes : List Nat) : List Nat :=
  match h with
  | TextChangeWordHandler.immediate => eventTimes
  | TextChangeWordHandler.debounced =>
    debounceRun 300 none (eventTimes.map (fun t => (t, true)))

/-! ## Storage module session machine (unavailable localStorage) -/

/-- The error thrown by a localStorage write when the store is unavailable
(private browsing and similar environments). -/
def unavailableWriteError : JsError :=
  ⟨"Error", "localStorage is not available"⟩

/-- State of the storage module within one page session: whether
localStorage is available, the isAutosaveEnabled flag, the pending autosave
timer deadline, the stored value under the fixed key, and the footer
status. -/
structure StorageState where
  avail : Bool
  enabled : Bool
  timer : Option Nat
  saved : Option StoredVal
  status : SaveStatus

/-- The setItem outcome for the session: writes succeed exactly when the
store is available. -/
def writeErrOf (st : StorageState) : Option JsError :=
  if st.avail then none else some unavailableWriteError

/-- Module-load initialisation of the storage module: isAutosaveEnabled
starts true and the availability check at the bottom of the module sets it
to false (with an error status) when localStorage is unavailable. -/
def storageModuleInit (avail : Bool) (saved0 : Option StoredVal) : StorageState :=
  ⟨avail, avail, none, saved0, if avail then SaveStatus.ready else SaveStatus.error⟩

/-- Events that touch the autosave-relevant state of the storage module
during a session. -/
inductive StorageEvent where
  | userChange (t : Nat)
  | apiChange (t : Nat)
  | timerDue (t : Nat) (content : Delta) (now : Nat)
  | manualSaveClick (content : Delta) (now : Nat)

/-- One step of the storage module session: a user-sourced change runs
triggerAutosave (which returns immediately when isAutosaveEnabled is false,
otherwise re-arms the timer and shows the pending status); a programmatic
change does nothing; a due timer deadline runs performSave(true); the save
button runs performSave(false). No transition ever writes isAutosaveEnabled
back to true, mirroring the fact that nothing in the module does. -/
def storageStep (st : StorageState) (ev : StorageEvent) : StorageState :=
  match ev with
  | StorageEvent.userChange t =>
    if st.enabled then { st with timer := some (t + 2000), status := SaveStatus.pending }
    else st
  | StorageEvent.apiChange _ => st
  | StorageEvent.timerDue t content now =>
    match st.timer with
    | some d =>
      if d ≤ t then
        let r := performSave true content st.saved (writeErrOf st) now
        { st with timer := none, saved := r.store, status := r.status }
      else st
    | none => st
  | StorageEvent.manualSaveClick content now =>
    let r := performSave false content st.saved (writeErrOf st) now
    { st with saved := r.store, status := r.status }

/-! ## Export module: PDF assembly and the click handler -/

/-- Canvas produced by html2canvas: pixel dimensions of the rasterized
off-screen wrapper. -/
structure Canvas where
  width : Nat
  height : Nat

/-- One addImage placement on a PDF page, in millimetres. -/
structure ImagePlacement where
  x : Rat
  y : Rat
  w : Rat
  h : Rat

/-- A jsPDF document: its pages, each a list of image placements. -/
structure Pdf where
  pages : List (List ImagePlacement)

/-- A4 portrait page width in millimetres, as reported by
pdf.internal.pageSize.getWidth(). -/
def a4WidthMm : Rat := 210

/-- A4 portrait page height in millimetres, as reported by
pdf.internal.pageSize.getHeight(); the export handler computes it but never
uses it. -/
def a4HeightMm : Rat := 297

/-- Model of new jsPDF(...): a document with one empty page. -/
def jsPdfNew : Pdf :=
  ⟨[[]]⟩

/-- Model of pdf.addImage: places an image on the current (last) page. -/
def pdfAddImage (p : Pdf) (x y w h : Rat) : Pdf :=
  { pages := p.pages.dropLast ++ [p.pages.getLast?.getD [] ++ [⟨x, y, w, h⟩]] }

/-- Image width used by the export handler: page width minus a 10 mm margin
on each side. -/
def scaledImgWidth : Rat :=
  a4WidthMm - 20

/-- Image height used by the export handler: canvas height scaled by the
same factor as the width, preserving the canvas aspect ratio. -/
def scaledImgHeight (c : Canvas) : Rat :=
  (c.height : Rat) * scaledImgWidth / (c.width : Rat)

/-- Model of the PDF assembly portion of the export click handler: one
jsPDF document, one addImage call at the fixed 10 mm margin with the scaled
dimensions, and no further pages. -/
def exportAssemble (canvas : Canvas) : Pdf :=
  pdfAddImage jsPdfNew 10 10 scaledImgWidth (scaledImgHeight canvas)

/-- The steps inside the try block of the export handler that can throw. -/
inductive ExportStep where
  | rasterize
  | toDataUrl
  | pdfCtor
  | addImage
  | savePdf
deriving DecidableEq

/-- A failure injected at one step of the export pipeline, with the message
of the thrown error. -/
structure ExportFail where
  step : ExportStep
  msg : String

/-- Outcome of one step: the injected failure throws at its step, every
other step succeeds. -/
def runStep (failure : Option ExportFail) (st : ExportStep) : Except String Unit :=
  match failure with
  | some f => if f.step == st then Except.error f.msg else Except.ok ()
  | none => Except.ok ()

/-- Filename derived from the current timestamp by the export handler. -/
def pdfFilename (now : Nat) : String :=
  "document_" ++ toString now ++ ".pdf"

/-- The body of the try block of the export click handler: rasterize the
wrapper, convert to a data URL, construct the jsPDF document, add the
image, save (which triggers the download). The first failing step aborts
with its error message. -/
def exportAttempt (failure : Option ExportFail) (canvas : Canvas) (now : Nat) :
    Except String (Pdf × String) :=
  match runStep failure ExportStep.rasterize with
  | Except.error m => Except.error m
  | Except.ok _ =>
    match runStep failure ExportStep.toDataUrl with
    | Except.error m => Except.error m
    | Except.ok _ =>
      match runStep failure ExportStep.pdfCtor with
      | Except.error m => Except.error m
      | Except.ok _ =>
        let pdf := exportAssemble canvas
        match runStep failure ExportStep.addImage with
        | Except.error m => Except.error m
        | Except.ok _ =>
          match runStep failure ExportStep.savePdf with
          | Except.error m => Except.error m
          | Except.ok _ => Except.ok (pdf, pdfFilename now)

/-- Idle label of the export trigger button. -/
def pdfBtnLabel : String :=
  "📄 PDF"

/-- Busy label of the export trigger button while an export is in flight. -/
def exportingBtnLabel : String :=
  "⏳ Exporting..."

/-- User-visible state touched by the export click handler: the off-screen
wrapper and overlay, the trigger button, the alerts raised, the downloads
triggered, and the assembled document on success. -/
structure UiState where
  wrapperAttached : Bool
  overlayAttached : Bool
  btnDisabled : Bool
  btnLabel : String
  alerts : List String
  downloads : List String
  pdf : Option Pdf

/-- UI state before the click: nothing staged, button enabled. -/
def initialUi : UiState :=
  ⟨false, false, false, pdfBtnLabel, [], [], none⟩

/-- Model of the export button click handler. Guards: an uninitialised
engine and an empty trimmed document abort with an alert before anything is
staged. Otherwise the button is disabled and relabelled, the overlay and
wrapper are attached, and the try block runs; on success the download is
recorded, the off-screen elements are removed and the button restored
before the success alert; in the catch the failure alert (including the
error message) is raised, then wrapper and overlay are removed and the
button restored. -/
def exportClick (quillInit : Bool) (content : Delta) (failure : Option ExportFail)
    (canvas : Canvas) (now : Nat) : UiState :=
  if !quillInit then
    { initialUi with alerts := initialUi.alerts ++ ["Editor is not initialized."] }
  else if (jsTrim (deltaText content)).length == 0 then
    { initialUi with alerts := initialUi.alerts ++ ["⚠️ Document is empty. Please add content first."] }
  else
    let busy := { initialUi with btnDisabled := true, btnLabel := exportingBtnLabel }
    let staged := { busy with overlayAttached := true, wrapperAttached := true }
    match exportAttempt failure canvas now with
    | Except.ok (p, filename) =>
      let saved := { staged with downloads := staged.downloads ++ [filename], pdf := some p }
      let cleaned := { saved with wrapperAttached := false, overlayAttached := false }
      let restored := { cleaned with btnDisabled := false, btnLabel := pdfBtnLabel }
      { restored with alerts := restored.alerts ++ ["✅ PDF downloaded successfully!"] }
    | Except.error msg =>
      let alerted := { staged with alerts := staged.alerts ++ ["Export failed: " ++ msg] }
      let cleaned := { alerted with wrapperAttached := false, overlayAttached := false }
      { cleaned with btnDisabled := false, btnLabel := pdfBtnLabel }

/-! ## Sample concrete values used by witnesses and counterexamples -/

/-- A Delta whose plain text is the Hello World document. -/
def helloDelta : Delta :=
  ⟨[⟨"Hello World\n", none⟩]⟩

/-- The Delta of an empty Quill document. -/
def emptyDelta : Delta :=
  ⟨[⟨"\n", none⟩]⟩

/-! ## Helper lemmas -/

/-- Decoding inverts encoding on one Delta operation. -/
theorem decodeOp_encodeOp (op : Op) : decodeOp (encodeOp op) = op := by
  obtain ⟨ins, attrs⟩ := op
  cases attrs with
  | none => rfl
  | some a => rfl

/-- Decoding inverts encoding on a whole Delta. -/
theorem decodeDelta_encodeDelta (d : Delta) : decodeDelta (encodeDelta d) = d := by
  obtain ⟨ops⟩ := d
  have h : ∀ l : List Op, (l.map encodeOp).map decodeOp = l := by
    intro l
    induction l with
    | nil => rfl
    | cons a t iht => simp [decodeOp_encodeOp, iht]
  have hred : decodeDelta (encodeDelta ⟨ops⟩) = ⟨(ops.map encodeOp).map decodeOp⟩ := rfl
  rw [hred, h]

/-- Undo is a no-op on an engine whose undo stack is empty. -/
theorem historyUndo_empty (q : Quill) (h : q.undoStack = []) : historyUndo q = q := by
  obtain ⟨c, u, r⟩ := q
  simp only at h
  subst h
  rfl

/-- When loadSavedDocument reports the loaded status, the engine it returns
went through the success branch, so its history was cleared. -/
theorem loadSavedDocument_loaded_quill (store : Option StoredVal) (q : Quill) (cc : Bool)
    (h : (loadSavedDocument store q cc).statusSet = some SaveStatus.loaded) :
    (loadSavedDocument store q cc).quill.undoStack = [] := by
  cases store with
  | none => simp [loadSavedDocument] at h
  | some sv =>
    cases hp : jsonParse sv with
    | error e =>
      simp only [loadSavedDocument, hp] at h ⊢
      unfold handleLoadError at h ⊢
      split at h
      · split at h
        · simp at h
        · simp at h
      · simp at h
    | ok j =>
      cases hv : validateSaveData j with
      | error e2 =>
        simp only [loadSavedDocument, hp, hv] at h ⊢
        unfold handleLoadError at h ⊢
        split at h
        · split at h
          · simp at h
          · simp at h
        · simp at h
      | ok cj =>
        simp only [loadSavedDocument, hp, hv]
        rfl

/-! ## Claim theorems -/

/-- C2: for every save invocation, an automatic save of a document whose
trimmed plain text is empty writes nothing to the store and reports the
distinct save-skipped (disabled) status, while a manual save writes a Save
Record regardless of emptiness. -/
theorem performSave_empty_doc_policy (content : Delta) (store : Option StoredVal)
    (writeErr : Option JsError) (now : Nat) :
    ((jsTrim (deltaText content)).length = 0 →
      performSave true content store writeErr now = ⟨store, SaveStatus.disabled, none⟩) ∧
    (performSave false content store none now =
      ⟨some (jsonStringify (buildSaveRecord content now)), SaveStatus.saved,
       some manualSaveSuccessAlert⟩) ∧
    statusMessage SaveStatus.disabled ≠ statusMessage SaveStatus.saved := by
  refine ⟨?_, ?_, by decide⟩
  · intro h
    simp [performSave, h]
  · simp [performSave]

/-- Witness for C2 at concrete inputs: the empty document is skipped by an
autosave and the Hello World document is written by a manual save. -/
theorem performSave_empty_doc_policy_witness :
    performSave true emptyDelta none none 0 = ⟨none, SaveStatus.disabled, none⟩ ∧
    performSave false helloDelta none none 5 =
      ⟨some (jsonStringify (buildSaveRecord helloDelta 5)), SaveStatus.saved,
       some manualSaveSuccessAlert⟩ :=
  ⟨(performSave_empty_doc_policy emptyDelta none none 0).1 (by rfl),
   (performSave_empty_doc_policy helloDelta none none 5).2.1⟩

/-- C3: a save (serializing the engine content plus metadata under the fixed
key) followed by a restore parses and validates the record, replaces the
engine content with its content field, and yields content equal to the
original, hence with the same plain text. -/
theorem performSave_load_roundtrip (content : Delta) (q : Quill)
    (store0 : Option StoredVal) (now : Nat) (confirmClear : Bool) :
    (loadSavedDocument (performSave false content store0 none now).store q confirmClear).statusSet
      = some SaveStatus.loaded ∧
    (loadSavedDocument (performSave false content store0 none now).store q confirmClear).quill.content
      = content ∧
    deltaText ((loadSavedDocument (performSave false content store0 none now).store q confirmClear).quill.content)
      = deltaText content := by
  have hstore : (performSave false content store0 none now).store
      = some (jsonStringify (buildSaveRecord content now)) := by
    simp [performSave]
  have hval : validateSaveData (buildSaveRecord content now) = Except.ok (encodeDelta content) := rfl
  have hload : loadSavedDocument (some (jsonStringify (buildSaveRecord content now))) q confirmClear
      = ⟨historyClear (setContents q (decodeDelta (encodeDelta content))),
         some (jsonStringify (buildSaveRecord content now)), some SaveStatus.loaded, none⟩ := by
    simp only [loadSavedDocument, jsonStringify, jsonParse, hval]
  rw [hstore, hload]
  refine ⟨rfl, ?_, ?_⟩
  · simp [historyClear, setContents, decodeDelta_encodeDelta]
  · simp [historyClear, setContents, decodeDelta_encodeDelta]

/-- C4: after a confirmed createNewDocument, and after a successful restore,
the undo stack is empty, so undo has no effect on the engine. -/
theorem newDocument_and_restore_not_undoable (q : Quill) (store : Option StoredVal)
    (confirmClear : Bool) :
    ((createNewDocument q true).undoStack = [] ∧
     historyUndo (createNewDocument q true) = createNewDocument q true) ∧
    ((loadSavedDocument store q confirmClear).statusSet = some SaveStatus.loaded →
      ((loadSavedDocument store q confirmClear).quill.undoStack = [] ∧
       historyUndo ((loadSavedDocument store q confirmClear).quill) =
         (loadSavedDocument store q confirmClear).quill)) := by
  constructor
  · exact ⟨rfl, rfl⟩
  · intro h
    have h1 := loadSavedDocument_loaded_quill store q confirmClear h
    exact ⟨h1, historyUndo_empty _ h1⟩

/-- A stored Save Record used by witnesses: the result of saving the Hello
World document at time 42. -/
def demoStore : Option StoredVal :=
  some (jsonStringify (buildSaveRecord helloDelta 42))

/-- Witness for C4 at concrete inputs: a confirmed new document and a
successful restore of a concrete Save Record both leave undo a no-op. -/
theorem newDocument_and_restore_not_undoable_witness :
    ((createNewDocument emptyQuill true).undoStack = [] ∧
     historyUndo (createNewDocument emptyQuill true) = createNewDocument emptyQuill true) ∧
    ((loadSavedDocument demoStore emptyQuill false).quill.undoStack = [] ∧
     historyUndo ((loadSavedDocument demoStore emptyQuill false).quill) =
       (loadSavedDocument demoStore emptyQuill false).quill) := by
  have h := newDocument_and_restore_not_undoable emptyQuill demoStore false
  exact ⟨h.1, h.2 (by rfl)⟩

/-- C5 counterexample: an automatic save that fails with a quota-exceeded
error shows no alert at all (handleSaveError only alerts manual saves), and
the footer status it sets carries no export or cleanup suggestion, so the
claim that every failing save shows the quota message is false. -/
theorem autosave_quota_error_shows_no_message :
    (performSave true helloDelta none (some ⟨"QuotaExceededError", "quota exceeded"⟩) 0).alert
      = none ∧
    (performSave true helloDelta none (some ⟨"QuotaExceededError", "quota exceeded"⟩) 0).status
      = SaveStatus.error ∧
    strIncludes (statusMessage SaveStatus.error) ("export") = false :=
  ⟨rfl, rfl, rfl⟩

/-- C5 amended: on a failing store write the error is classified (quota
versus generic) and the error status is always set, but the classified
user-visible message is alerted only for manual saves; automatic saves stay
silent apart from the status display. -/
theorem saveError_alert_only_manual (isAutomatic : Bool) (content : Delta)
    (store : Option StoredVal) (e : JsError) (now : Nat)
    (h : isAutomatic = true → (jsTrim (deltaText content)).length ≠ 0) :
    performSave isAutomatic content store (some e) now =
      ⟨store, SaveStatus.error, if isAutomatic then none else some (saveErrorAlertMessage e)⟩ ∧
    (e.name = "QuotaExceededError" → saveErrorAlertMessage e = quotaExceededMessage) ∧
    (e.name ≠ "QuotaExceededError" → saveErrorAlertMessage e = genericSaveFailMessage) := by
  refine ⟨?_, ?_, ?_⟩
  · cases isAutomatic with
    | false => simp [performSave, handleSaveError]
    | true =>
      have h2 := h rfl
      have h3 : ((jsTrim (deltaText content)).length == 0) = false := by
        simpa using h2
      simp [performSave, h3, handleSaveError]
  · intro hq
    simp [saveErrorAlertMessage, hq]
  · intro hq
    have h4 : (e.name == "QuotaExceededError") = false := by
      simpa using hq
    simp [saveErrorAlertMessage, h4]

/-- Witness for C5 (amended) at a concrete input: a manual save failing with
a quota error alerts the quota message suggesting export. -/
theorem saveError_alert_only_manual_witness :
    performSave false helloDelta none (some ⟨"QuotaExceededError", "quota"⟩) 0 =
      ⟨none, SaveStatus.error, some (saveErrorAlertMessage ⟨"QuotaExceededError", "quota"⟩)⟩ ∧
    saveErrorAlertMessage ⟨"QuotaExceededError", "quota"⟩ = quotaExceededMessage := by
  have h := saveError_alert_only_manual false helloDelta none ⟨"QuotaExceededError", "quota"⟩ 0
    (by intro hh; exact absurd hh (by decide))
  exact ⟨h.1, h.2.1 rfl⟩

/-- C6: the text-change handler installed by initializeEditor runs the
word-count computation immediately at every event of a burst (two events
100 ms apart produce two executions), unlike the unused 300 ms debounced
wrapper, which would execute only once after the burst; the claim that only
the final call in a burst executes is contradicted by the wiring. -/
theorem wordCount_executes_every_change :
    editorWordCountWiring = TextChangeWordHandler.immediate ∧
    wordCountRuns editorWordCountWiring [0, 100] = [0, 100] ∧
    wordCountRuns TextChangeWordHandler.debounced [0, 100] = [400] :=
  ⟨rfl, rfl, rfl⟩

/-- C7 counterexample: a canvas whose scaled image height (1085.71 mm)
exceeds the A4 page height still produces a single-page document, so the
claim that tall content is distributed across multiple pages is false. -/
theorem export_tall_content_single_page :
    a4HeightMm < scaledImgHeight ⟨1400, 8000⟩ ∧
    (exportAssemble ⟨1400, 8000⟩).pages.length = 1 := by
  constructor
  · norm_num [scaledImgHeight, scaledImgWidth, a4WidthMm, a4HeightMm]
  · rfl

/-- C7 amended: the export places the rasterized image exactly once, at the
fixed 10 mm margin, scaled to the page width minus margins while preserving
the canvas aspect ratio, on a single-page document; content taller than one
page is not distributed across further pages. -/
theorem exportAssemble_single_page_layout (c : Canvas) (h : c.width ≠ 0) :
    (exportAssemble c).pages = [[⟨10, 10, scaledImgWidth, scaledImgHeight c⟩]] ∧
    scaledImgHeight c * (c.width : Rat) = (c.height : Rat) * scaledImgWidth := by
  constructor
  · rfl
  · have hw : (c.width : Rat) ≠ 0 := Nat.cast_ne_zero.mpr h
    unfold scaledImgHeight
    exact div_mul_cancel₀ _ hw

/-- Witness for C7 (amended) at a concrete square canvas. -/
theorem exportAssemble_single_page_layout_witness :
    (exportAssemble ⟨700, 700⟩).pages = [[⟨10, 10, scaledImgWidth, scaledImgHeight ⟨700, 700⟩⟩]] ∧
    scaledImgHeight ⟨700, 700⟩ * ((700 : Nat) : Rat) = ((700 : Nat) : Rat) * scaledImgWidth :=
  exportAssemble_single_page_layout ⟨700, 700⟩ (by decide)

/-- C9: manualLoad re-parses the stored record outside any try block, so a
malformed stored record (with the user confirming the load and declining
the corrupted-data reset inside loadSavedDocument) propagates an uncaught
SyntaxError to the page instead of being converted to a message. -/
theorem manualLoad_propagates_parse_exception :
    manualLoad (some (StoredVal.malformed ("not json"))) emptyQuill true false =
      Except.error jsonSyntaxError ∧
    jsonSyntaxError.name = "SyntaxError" :=
  ⟨rfl, rfl⟩

/-- Lists: any over a map is any of the composition (the library version
in this toolchain fixes the mapped type, so this polymorphic form is proved
here). -/
theorem any_map_poly {a b : Type} (l : List a) (f : a → b) (p : b → Bool) :
    (l.map f).any p = l.any (fun x => p (f x)) := by
  induction l with
  | nil => rfl
  | cons x rest ih => simp [List.any_cons, ih]

/-- Core debounce lemma: over a strictly time-ordered trace, the timer
simulation produces exactly the quiet-window firing times, preceded by the
firing of a pre-armed deadline unless some later arming event cancels it. -/
theorem debounceRun_eq_spec (delay : Nat) :
    ∀ (evs : List (Nat × Bool)), evs.Pairwise (fun a b => a.1 < b.1) → ∀ (timer : Option Nat),
      debounceRun delay timer evs = pendingFire evs timer ++ quietSpecFires delay evs := by
  intro evs
  induction evs with
  | nil =>
    intro _ timer
    cases timer with
    | none => rfl
    | some d => rfl
  | cons hd rest ih =>
    intro hp timer
    obtain ⟨t, arms⟩ := hd
    have hlt : ∀ p ∈ rest, t < p.1 := (List.pairwise_cons.mp hp).1
    have hpr : rest.Pairwise (fun a b => a.1 < b.1) := (List.pairwise_cons.mp hp).2
    cases timer with
    | none =>
      cases arms with
      | false =>
        have lhs : debounceRun delay none ((t, false) :: rest) = debounceRun delay none rest := by
          simp [debounceRun]
        rw [lhs, ih hpr none]
        simp [pendingFire, quietSpecFires]
      | true =>
        have lhs : debounceRun delay none ((t, true) :: rest)
            = debounceRun delay (some (t + delay)) rest := by
          simp [debounceRun]
        rw [lhs, ih hpr (some (t + delay))]
        cases hany : rest.any (fun p => p.2 && decide (p.1 < t + delay)) with
        | false => simp [pendingFire, quietSpecFires, hany]
        | true => simp [pendingFire, quietSpecFires, hany]
    | some d =>
      by_cases hdt : d ≤ t
      · have hanyf : (((t, arms) :: rest).any fun p => p.2 && decide (p.1 < d)) = false := by
          rw [List.any_eq_false]
          intro p hpm
          rcases List.mem_cons.mp hpm with hph | hprest
          · subst hph
            have h3 : decide (t < d) = false := decide_eq_false (by omega)
            simp [h3]
          · have h2 := hlt p hprest
            have h3 : decide (p.1 < d) = false := decide_eq_false (by omega)
            simp [h3]
        cases arms with
        | true =>
          have lhs : debounceRun delay (some d) ((t, true) :: rest)
              = d :: debounceRun delay (some (t + delay)) rest := by
            simp [debounceRun, hdt]
          rw [lhs, ih hpr (some (t + delay))]
          cases hany : rest.any (fun p => p.2 && decide (p.1 < t + delay)) with
          | false => simp [pendingFire, quietSpecFires, hany, hanyf]
          | true => simp [pendingFire, quietSpecFires, hany, hanyf]
        | false =>
          have lhs : debounceRun delay (some d) ((t, false) :: rest)
              = d :: debounceRun delay none rest := by
            simp [debounceRun, hdt]
          rw [lhs, ih hpr none]
          simp [pendingFire, quietSpecFires, hanyf]
      · cases arms with
        | true =>
          have hh : (((t, true) :: rest).any fun p => p.2 && decide (p.1 < d)) = true := by
            have h3 : decide (t < d) = true := decide_eq_true (by omega)
            simp [List.any_cons, h3]
          have lhs : debounceRun delay (some d) ((t, true) :: rest)
              = debounceRun delay (some (t + delay)) rest := by
            simp [debounceRun, hdt]
          rw [lhs, ih hpr (some (t + delay))]
          cases hany : rest.any (fun p => p.2 && decide (p.1 < t + delay)) with
          | false => simp [pendingFire, quietSpecFires, hany, hh]
          | true => simp [pendingFire, quietSpecFires, hany, hh]
        | false =>
          have hh : (((t, false) :: rest).any fun p => p.2 && decide (p.1 < d))
              = (rest.any fun p => p.2 && decide (p.1 < d)) := by
            simp [List.any_cons]
          have lhs : debounceRun delay (some d) ((t, false) :: rest)
              = debounceRun delay (some d) rest := by
            simp [debounceRun, hdt]
          rw [lhs, ih hpr (some d)]
          have e1 : pendingFire ((t, false) :: rest) (some d) = pendingFire rest (some d) := by
            simp only [pendingFire, hh]
          have e2 : quietSpecFires delay ((t, false) :: rest) = quietSpecFires delay rest := rfl
          rw [e1, e2]

/-- The generic quiet-window spec over arming flags agrees with the
autosave quiet-window spec over source tags. -/
theorem quietSpecFires_map_source (evs : List (Nat × Source)) :
    quietSpecFires 2000 (evs.map (fun e => (e.1, e.2 == Source.user))) = autosaveQuietSpec evs := by
  induction evs with
  | nil => rfl
  | cons hd rest ih =>
    obtain ⟨t, s⟩ := hd
    have hany : ((rest.map (fun e => (e.1, e.2 == Source.user))).any
        (fun p => p.2 && decide (p.1 < t + 2000)))
        = (rest.any (fun p => (p.2 == Source.user) && decide (p.1 < t + 2000))) := by
      rw [any_map_poly]
    cases s with
    | user =>
      have l1 : quietSpecFires 2000 (((t, Source.user) :: rest).map (fun e => (e.1, e.2 == Source.user)))
          = if (rest.map (fun e => (e.1, e.2 == Source.user))).any (fun p => p.2 && decide (p.1 < t + 2000))
            then quietSpecFires 2000 (rest.map (fun e => (e.1, e.2 == Source.user)))
            else (t + 2000) :: quietSpecFires 2000 (rest.map (fun e => (e.1, e.2 == Source.user))) := rfl
      have l2 : autosaveQuietSpec ((t, Source.user) :: rest)
          = if rest.any (fun p => (p.2 == Source.user) && decide (p.1 < t + 2000))
            then autosaveQuietSpec rest
            else (t + 2000) :: autosaveQuietSpec rest := rfl
      rw [l1, l2, hany, ih]
    | api =>
      have l1 : quietSpecFires 2000 (((t, Source.api) :: rest).map (fun e => (e.1, e.2 == Source.user)))
          = quietSpecFires 2000 (rest.map (fun e => (e.1, e.2 == Source.user))) := rfl
      have l2 : autosaveQuietSpec ((t, Source.api) :: rest) = autosaveQuietSpec rest := rfl
      rw [l1, l2, ih]
    | silent =>
      have l1 : quietSpecFires 2000 (((t, Source.silent) :: rest).map (fun e => (e.1, e.2 == Source.user)))
          = quietSpecFires 2000 (rest.map (fun e => (e.1, e.2 == Source.user))) := rfl
      have l2 : autosaveQuietSpec ((t, Source.silent) :: rest) = autosaveQuietSpec rest := rfl
      rw [l1, l2, ih]

/-- A trace without user-sourced changes produces no quiet-window fires. -/
theorem autosaveQuietSpec_no_user :
    ∀ evs : List (Nat × Source), (∀ p ∈ evs, p.2 ≠ Source.user) → autosaveQuietSpec evs = [] := by
  intro evs
  induction evs with
  | nil => intro _; rfl
  | cons hd rest ih =>
    intro h
    obtain ⟨t, s⟩ := hd
    have hs : s ≠ Source.user := h (t, s) (List.mem_cons_self _ _)
    have hrest := ih (fun p hp => h p (List.mem_cons_of_mem _ hp))
    cases s with
    | user => exact absurd rfl hs
    | api =>
      have l2 : autosaveQuietSpec ((t, Source.api) :: rest) = autosaveQuietSpec rest := rfl
      rw [l2, hrest]
    | silent =>
      have l2 : autosaveQuietSpec ((t, Source.silent) :: rest) = autosaveQuietSpec rest := rfl
      rw [l2, hrest]

/-- C1: over any strictly time-ordered trace of content-change
notifications, the autosave simulation fires performSave(true) exactly
2000 ms after each user-sourced change that is not followed by another
user-sourced change strictly inside its 2000 ms window, and at no other
time; notifications from other sources never arm the timer, so a trace with
no user-sourced change produces no autosave at all. -/
theorem autosave_debounce_matches_quiet_window (evs : List (Nat × Source))
    (hs : evs.Pairwise (fun a b => a.1 < b.1)) :
    autosaveFires evs = autosaveQuietSpec evs ∧
    ((∀ p ∈ evs, p.2 ≠ Source.user) → autosaveFires evs = []) := by
  have hmap : (evs.map (fun e => (e.1, e.2 == Source.user))).Pairwise
      (fun a b => a.1 < b.1) := by
    rw [List.pairwise_map]
    exact hs
  have hmain : autosaveFires evs = autosaveQuietSpec evs := by
    unfold autosaveFires
    rw [debounceRun_eq_spec 2000 _ hmap none]
    simp [pendingFire, quietSpecFires_map_source]
  refine ⟨hmain, fun hnone => ?_⟩
  rw [hmain]
  exact autosaveQuietSpec_no_user evs hnone

/-- Witness for C1: a concrete burst of two user changes 1000 ms apart
followed by a programmatic change fires exactly one save at 3000 ms, and a
trace of purely programmatic changes fires none. -/
theorem autosave_debounce_matches_quiet_window_witness :
    autosaveFires [(0, Source.user), (1000, Source.user), (5000, Source.api)] = [3000] ∧
    autosaveFires [(0, Source.api), (100, Source.api)] = [] := by
  constructor
  · have h := (autosave_debounce_matches_quiet_window
      [(0, Source.user), (1000, Source.user), (5000, Source.api)] (by decide)).1
    rw [h]
    rfl
  · exact (autosave_debounce_matches_quiet_window
      [(0, Source.api), (100, Source.api)] (by decide)).2 (by decide)

/-- An injected failure at any pipeline step makes the try block abort with
its message. -/
theorem exportAttempt_some (f : ExportFail) (canvas : Canvas) (now : Nat) :
    exportAttempt (some f) canvas now = Except.error f.msg := by
  obtain ⟨st, m⟩ := f
  cases st <;> rfl

/-- C8: every export invocation that does not complete successfully — empty
trimmed document (blocking alert, no staging) or a throwing pipeline step
(alert including the error text) — ends with no off-screen wrapper or
overlay attached, the trigger button re-enabled with its idle label, and no
download produced. -/
theorem exportClick_failure_cleanup (content : Delta) (failure : Option ExportFail)
    (canvas : Canvas) (now : Nat)
    (h : (jsTrim (deltaText content)).length = 0 ∨ failure.isSome = true) :
    (exportClick true content failure canvas now).wrapperAttached = false ∧
    (exportClick true content failure canvas now).overlayAttached = false ∧
    (exportClick true content failure canvas now).btnDisabled = false ∧
    (exportClick true content failure canvas now).btnLabel = pdfBtnLabel ∧
    (exportClick true content failure canvas now).downloads = [] ∧
    (∀ f, failure = some f → (jsTrim (deltaText content)).length ≠ 0 →
      ("Export failed: " ++ f.msg) ∈ (exportClick true content failure canvas now).alerts) := by
  by_cases he : (jsTrim (deltaText content)).length = 0
  · have hcond : ((jsTrim (deltaText content)).length == 0) = true := by
      simpa using he
    have hred : exportClick true content failure canvas now
        = { initialUi with alerts := initialUi.alerts
            ++ ["⚠️ Document is empty. Please add content first."] } := by
      simp [exportClick, hcond]
    rw [hred]
    refine ⟨rfl, rfl, rfl, rfl, rfl, ?_⟩
    intro f _ hne
    exact absurd he hne
  · have hf : ∃ f, failure = some f := by
      rcases h with h0 | hsome
      · exact absurd h0 he
      · exact Option.isSome_iff_exists.mp hsome
    obtain ⟨f, rfl⟩ := hf
    have hcond : ((jsTrim (deltaText content)).length == 0) = false := by
      simpa using he
    have hred : exportClick true content (some f) canvas now
        = { wrapperAttached := false, overlayAttached := false, btnDisabled := false,
            btnLabel := pdfBtnLabel, alerts := ["Export failed: " ++ f.msg],
            downloads := [], pdf := none } := by
      simp [exportClick, hcond, exportAttempt_some, initialUi, exportingBtnLabel]
    rw [hred]
    refine ⟨rfl, rfl, rfl, rfl, rfl, ?_⟩
    intro f2 hf2 _
    have hf3 : f2 = f := (Option.some.inj hf2).symm
    rw [hf3]
    exact List.mem_singleton.mpr rfl

/-- Witness for C8 at a concrete input: a rasterization failure on the
Hello World document cleans up the staging elements, re-enables the
trigger, produces no download and surfaces the error text. -/
theorem exportClick_failure_cleanup_witness :
    (exportClick true helloDelta (some ⟨ExportStep.rasterize, "canvas boom"⟩) ⟨1400, 100⟩ 0).wrapperAttached = false ∧
    (exportClick true helloDelta (some ⟨ExportStep.rasterize, "canvas boom"⟩) ⟨1400, 100⟩ 0).overlayAttached = false ∧
    (exportClick true helloDelta (some ⟨ExportStep.rasterize, "canvas boom"⟩) ⟨1400, 100⟩ 0).btnDisabled = false ∧
    (exportClick true helloDelta (some ⟨ExportStep.rasterize, "canvas boom"⟩) ⟨1400, 100⟩ 0).downloads = [] ∧
    ("Export failed: " ++ "canvas boom") ∈
      (exportClick true helloDelta (some ⟨ExportStep.rasterize, "canvas boom"⟩) ⟨1400, 100⟩ 0).alerts := by
  have h := exportClick_failure_cleanup helloDelta (some ⟨ExportStep.rasterize, "canvas boom"⟩)
    ⟨1400, 100⟩ 0 (Or.inr rfl)
  exact ⟨h.1, h.2.1, h.2.2.1, h.2.2.2.2.1, h.2.2.2.2.2 _ rfl (by decide)⟩

/-- Session invariant: once the storage module starts with localStorage
unavailable, every event sequence leaves the autosave flag false, the timer
unarmed, and the stored value untouched. -/
theorem storageRun_inv (evs : List StorageEvent) :
    ∀ st : StorageState, st.avail = false → st.enabled = false → st.timer = none →
      ((evs.foldl storageStep st).avail = false ∧
       (evs.foldl storageStep st).enabled = false ∧
       (evs.foldl storageStep st).timer = none ∧
       (evs.foldl storageStep st).saved = st.saved) := by
  induction evs with
  | nil =>
    intro st h1 h2 h3
    exact ⟨h1, h2, h3, rfl⟩
  | cons ev rest ih =>
    intro st h1 h2 h3
    have hstep : (storageStep st ev).avail = false ∧ (storageStep st ev).enabled = false ∧
        (storageStep st ev).timer = none ∧ (storageStep st ev).saved = st.saved := by
      cases ev with
      | userChange t =>
        have hred : storageStep st (StorageEvent.userChange t) = st := by
          simp [storageStep, h2]
        rw [hred]
        exact ⟨h1, h2, h3, rfl⟩
      | apiChange t =>
        exact ⟨h1, h2, h3, rfl⟩
      | timerDue t content now =>
        have hred : storageStep st (StorageEvent.timerDue t content now) = st := by
          simp [storageStep, h3]
        rw [hred]
        exact ⟨h1, h2, h3, rfl⟩
      | manualSaveClick content now =>
        have hw : writeErrOf st = some unavailableWriteError := by
          simp [writeErrOf, h1]
        have hps : performSave false content st.saved (writeErrOf st) now =
            ⟨st.saved, SaveStatus.error, some (saveErrorAlertMessage unavailableWriteError)⟩ := by
          rw [hw]
          simp [performSave, handleSaveError]
        have hred : storageStep st (StorageEvent.manualSaveClick content now)
            = { st with saved := st.saved, status := SaveStatus.error } := by
          simp [storageStep, hps]
        rw [hred]
        exact ⟨h1, h2, h3, rfl⟩
    obtain ⟨g1, g2, g3, g4⟩ := hstep
    have hrec := ih (storageStep st ev) g1 g2 g3
    rw [List.foldl_cons]
    exact ⟨hrec.1, hrec.2.1, hrec.2.2.1, hrec.2.2.2.trans g4⟩

/-- C10: when localStorage is unavailable at module load, the autosave flag
is set false and no event of the session sets it back: after any event
sequence the flag is still false, no timer is armed, and the stored value is
unchanged (autosave never writes), a further user change leaves the state
untouched (triggerAutosave returns immediately), while a manual save still
attempts the write and takes the error path without writing. -/
theorem storage_unavailable_disables_autosave (evs : List StorageEvent)
    (saved0 : Option StoredVal) :
    ((evs.foldl storageStep (storageModuleInit false saved0)).enabled = false) ∧
    ((evs.foldl storageStep (storageModuleInit false saved0)).timer = none) ∧
    ((evs.foldl storageStep (storageModuleInit false saved0)).saved = saved0) ∧
    (∀ t, storageStep (evs.foldl storageStep (storageModuleInit false saved0))
        (StorageEvent.userChange t) = evs.foldl storageStep (storageModuleInit false saved0)) ∧
    (∀ content now,
      (storageStep (evs.foldl storageStep (storageModuleInit false saved0))
        (StorageEvent.manualSaveClick content now)).saved = saved0 ∧
      (storageStep (evs.foldl storageStep (storageModuleInit false saved0))
        (StorageEvent.manualSaveClick content now)).status = SaveStatus.error) := by
  have h := storageRun_inv evs (storageModuleInit false saved0) rfl rfl rfl
  obtain ⟨h1, h2, h3, h4⟩ := h
  have hsaved : (evs.foldl storageStep (storageModuleInit false saved0)).saved = saved0 := h4
  refine ⟨h2, h3, hsaved, ?_, ?_⟩
  · intro t
    simp [storageStep, h2]
  · intro content now
    have hw : writeErrOf (evs.foldl storageStep (storageModuleInit false saved0))
        = some unavailableWriteError := by
      simp [writeErrOf, h1]
    have hps : performSave false content
        (evs.foldl storageStep (storageModuleInit false saved0)).saved
        (writeErrOf (evs.foldl storageStep (storageModuleInit false saved0))) now =
        ⟨(evs.foldl storageStep (storageModuleInit false saved0)).saved, SaveStatus.error,
         some (saveErrorAlertMessage unavailableWriteError)⟩ := by
      rw [hw]
      simp [performSave, handleSaveError]
    have hred2 : storageStep (evs.foldl storageStep (storageModuleInit false saved0))
        (StorageEvent.manualSaveClick content now)
        = { (evs.foldl storageStep (storageModuleInit false saved0)) with
            saved := (evs.foldl storageStep (storageModuleInit false saved0)).saved,
            status := SaveStatus.error } := by
      simp [storageStep, hps]
    rw [hred2]
    exact ⟨hsaved, rfl⟩
